import Mathlib

/-!
Verification of the `ai-issue-resolver` bot (`bot.py`, `test_bot.py`).

The definitions below are a shallow embedding of the Python source.  Pure
helpers become Lean functions on `String` / `List`; the persisted local
state (the processed-issues file and the metrics file) becomes an explicit
association-list file system threaded through the operations; the calls to
external services (GitHub API, the Gemini model, `git`) are modelled as
oracle inputs, since only their results flow into the logic under
verification.  Python `str` is modelled as Lean `String` (both sequences of
unicode code points, `len` = `String.length`).
-/

namespace Bot

/-! ## Generic string helpers (Python `in`, `startswith`, basename, suffix) -/

/-- Does `l` start with the pattern `pat`?  (Python `str.startswith` on char lists.) -/
def listStarts (pat l : List Char) : Bool :=
  match pat, l with
  | [], _ => true
  | _ :: _, [] => false
  | a :: as, b :: bs => a == b && listStarts as bs

/-- Does `l` contain `pat` as a contiguous sublist?  (Python `pat in l`.) -/
def listHasSub (pat : List Char) : List Char → Bool
  | [] => pat.isEmpty
  | c :: rest => listStarts pat (c :: rest) || listHasSub pat rest

/-- Python `pat in s` for strings. -/
def strContains (s pat : String) : Bool :=
  listHasSub pat.data s.data

/-- Python `s.endswith(suf)`. -/
def strEnds (s suf : String) : Bool :=
  listStarts suf.data.reverse s.data.reverse

/-- Python `str.lower` (ASCII case folding suffices for every string the
source compares case-insensitively). -/
def strLower (s : String) : String :=
  String.mk (s.data.map Char.toLower)

/-- Python `str.upper` (ASCII case folding, see `strLower`). -/
def strUpper (s : String) : String :=
  String.mk (s.data.map Char.toUpper)

/-- ASCII whitespace stripped by Python `str.strip()`. -/
def isStripWS (c : Char) : Bool :=
  c == ' ' || c == '\t' || c == '\n' || c == Char.ofNat 13 || c == Char.ofNat 11 || c == Char.ofNat 12

/-- Python `s.strip()` (ASCII whitespace; the unicode cases never occur in
the compared literals). -/
def strStrip (s : String) : String :=
  String.mk (((s.data.dropWhile isStripWS).reverse.dropWhile isStripWS).reverse)

/-- Python `os.path.basename`: everything after the last `/` (POSIX). -/
def osBasename (p : String) : String :=
  String.mk ((p.data.reverse.takeWhile (fun c => c != '/')).reverse)

/-- The final path component as computed by `pathlib.Path(p).name`:
trailing slashes are stripped before taking the last component. -/
def pathlibName (p : String) : String :=
  osBasename (String.mk ((p.data.reverse.dropWhile (fun c => c == '/')).reverse))

/-- Index of the last occurrence of `c` in `l`, or `none` (Python `str.rfind`). -/
def lastIdx (c : Char) (l : List Char) : Option Nat :=
  match l.reverse.findIdx? (fun x => x == c) with
  | none => none
  | some k => some (l.length - 1 - k)

/-- The extension as computed by `pathlib.Path(p).suffix`: take the name,
find the last dot `i`; the suffix is `name[i:]` when `0 < i < len(name) - 1`,
otherwise the empty string (so dotfiles like `.env` and trailing dots have
no suffix). -/
def pathSuffix (p : String) : String :=
  let name := pathlibName p
  match lastIdx '.' name.data with
  | none => ""
  | some i => if 0 < i ∧ i < name.data.length - 1 then String.mk (name.data.drop i) else ""

/-! ## Configuration constants (the `Config` dataclass in `bot.py`) -/

def MAX_ISSUE_AGE_DAYS : Nat := 60
def MAX_ISSUE_COMMENTS : Nat := 5
def MAX_CONTEXT_SIZE : Nat := 400000
def MAX_FILE_SIZE : Nat := 50000
def MIN_ISSUE_BODY_LENGTH : Nat := 50

def SAFE_FILE_EXTENSIONS : List String :=
  [".py", ".js", ".ts", ".md", ".txt", ".html", ".css", ".json",
   ".yaml", ".yml", ".toml", ".ini", ".cfg", ".conf", ".xml",
   ".java", ".cpp", ".c", ".h", ".hpp", ".rs", ".go", ".rb",
   ".php", ".sh", ".bash", ".zsh", ".ps1", ".bat"]

/-- The alternatives of the first entry of `UNSAFE_FILE_PATTERNS`,
the regex `\.(key|pem|p12|pfx|crt|cer|pub|priv|env|secret|token)$`. -/
def DENY_SUFFIX_ALTS : List String :=
  ["key", "pem", "p12", "pfx", "crt", "cer", "pub", "priv", "env", "secret", "token"]

/-- The alternatives of the second entry of `UNSAFE_FILE_PATTERNS`,
the regex `/(\.env|\.aws|\.ssh)/`. -/
def DENY_DIR_ALTS : List String := [".env", ".aws", ".ssh"]

/-- Source set `BLACKLISTED_DIRS` (the literal lists `__pycache__` twice;
a Python set keeps one copy). -/
def BLACKLISTED_DIRS : List String :=
  ["node_modules", "__pycache__", ".git", "venv", "dist",
   "build", "target", ".idea", ".vscode"]

/-- Source set `UNSAFE_FILE_NAMES`. -/
def DENY_FILE_NAMES : List String :=
  [".env", "secrets.json", "config.prod.json", "private.key", "service-account.json"]

/-- The `known_configs` local set inside `is_safe_to_modify`. -/
def KNOWN_CONFIGS : List String :=
  ["Dockerfile", "Makefile", "docker-compose.yml", "README", "LICENSE"]

/-! ## `is_safe_to_modify` (bot.py lines 149-175) -/

/-- Matching of `re.search(r'\.(...alts...)$', path, re.IGNORECASE)`:
the lowered path ends with `.` + alternative, where `$` also matches just
before a single trailing newline. -/
def denySuffixMatch (p : String) : Bool :=
  let pl := strLower p
  DENY_SUFFIX_ALTS.any (fun alt =>
    strEnds pl ("." ++ alt) || strEnds pl ("." ++ alt ++ "\n"))

/-- Matching of `re.search(r'/(\.env|\.aws|\.ssh)/', path, re.IGNORECASE)`. -/
def denyDirMatch (p : String) : Bool :=
  let pl := strLower p
  DENY_DIR_ALTS.any (fun d => strContains pl ("/" ++ d ++ "/"))

/-- The blacklisted-directory test of bot.py 153: the slash-wrapped
directory name occurs as a substring of the slash-wrapped path. -/
def inBlacklistedDir (p : String) : Bool :=
  BLACKLISTED_DIRS.any (fun d => strContains ("/" ++ p ++ "/") ("/" ++ d ++ "/"))

/-- Shallow embedding of `is_safe_to_modify` (bot.py 149-175).  Note that,
beyond the denylists, the final block rejects any path whose (nonempty)
extension is not in `SAFE_FILE_EXTENSIONS` unless its basename is one of
`known_configs` - an allowlist check. -/
def is_safe_to_modify (file_path : String) : Bool :=
  if inBlacklistedDir file_path then false
  else if DENY_FILE_NAMES.contains (osBasename file_path) then false
  else if denySuffixMatch file_path || denyDirMatch file_path then false
  else
    let file_ext := pathSuffix file_path
    if file_ext != "" && !(SAFE_FILE_EXTENSIONS.contains file_ext) then
      if !(KNOWN_CONFIGS.contains (osBasename file_path)) then false
      else true
    else true

/-! ## Persisted local state (bot.py lines 75-76, 113-147)

The script persists local state through two JSON files only:
`processed_issues.json` and `bot_metrics.json`.  We model the local
directory as an association list from file name to parsed content.  A
`raw` content stands for bytes that `json.load` cannot parse (both readers
guard their parse with a broad `except`). -/

def PROCESSED_ISSUES_FILE : String := "processed_issues.json"
def METRICS_FILE : String := "bot_metrics.json"

/-- Parsed content of a persisted file: the processed-issues JSON object,
the metrics JSON object (counters plus the `last_run` timestamp), or
unparsable bytes. -/
inductive FileContent where
  | processedList (urls : List String)
  | metrics (counters : List (String × Int)) (lastRun : Int)
  | raw (s : String)
  deriving DecidableEq, Repr

/-- The local working directory, file name to content. -/
abbrev LocalFS := List (String × FileContent)

def lookupFS (fs : LocalFS) (name : String) : Option FileContent :=
  (fs.find? (fun e => e.1 == name)).map (fun e => e.2)

/-- Writing a file replaces its previous content. -/
def writeFS (fs : LocalFS) (name : String) (c : FileContent) : LocalFS :=
  (fs.filter (fun e => e.1 != name)) ++ [(name, c)]

/-- `get_processed_issues` (bot.py 132-140): read the file, return
`set(data.get("processed_issues", []))`; a missing or unparsable file (or
a JSON object without the key) yields the empty set.  The Python `set` is
represented by a duplicate-free list. -/
def get_processed_issues (fs : LocalFS) : List String :=
  match lookupFS fs PROCESSED_ISSUES_FILE with
  | some (.processedList l) => l.dedup
  | _ => []

/-- `add_issue_to_processed` (bot.py 142-147): read the current set, add
the URL, write the whole set back. -/
def add_issue_to_processed (fs : LocalFS) (issue_url : String) : LocalFS :=
  let processed := (get_processed_issues fs).insert issue_url
  writeFS fs PROCESSED_ISSUES_FILE (.processedList processed)

/-- The starting metrics dict used when `bot_metrics.json` does not exist
(bot.py 121). -/
def defaultMetrics : List (String × Int) :=
  [("issues_processed", 0), ("prs_created", 0), ("errors", 0)]

/-- `metrics[key] = metrics.get(key, 0) + value` on the counters dict. -/
def bumpCounter (m : List (String × Int)) (k : String) (v : Int) : List (String × Int) :=
  let old := (((m.find? (fun e => e.1 == k)).map (fun e => e.2)).getD 0)
  (m.filter (fun e => e.1 != k)) ++ [(k, old + v)]

/-- `Metrics.update` (bot.py 113-129): load the metrics file (or the
default dict when it is missing), bump the counter, set `last_run` to the
current time, and write the file back.  The whole body sits in a bare
`try/except: pass`, so a file whose JSON cannot be loaded makes the update
a no-op; a well-formed JSON payload of a different shape never occurs at
this path because only `Metrics.update` writes it. -/
def metricsUpdate (fs : LocalFS) (key : String) (value : Int) (now : Int) : LocalFS :=
  match lookupFS fs METRICS_FILE with
  | some (.metrics m _) => writeFS fs METRICS_FILE (.metrics (bumpCounter m key value) now)
  | none => writeFS fs METRICS_FILE (.metrics (bumpCounter defaultMetrics key value) now)
  | some _ => fs

/-- A write to the persisted local state, as performed by the pipeline:
either the `finally`-block append of a processed issue URL or a metrics
counter bump.  Every persistent-file operation in `bot.py` is one of
these two. -/
inductive StateOp where
  | addProcessed (u : String)
  | metricsBump (k : String) (v : Int) (now : Int)
  deriving DecidableEq, Repr

def applyStateOp (fs : LocalFS) : StateOp → LocalFS
  | .addProcessed u => add_issue_to_processed fs u
  | .metricsBump k v now => metricsUpdate fs k v now

def runStateOps (fs : LocalFS) : List StateOp → LocalFS
  | [] => fs
  | op :: rest => runStateOps (applyStateOp fs op) rest

/-! ## Issue discovery (bot.py 189-243) -/

/-- A GitHub issue as consumed by the bot: the fields `is_good_issue_candidate`,
`find_github_issues` and `process_issue` read. -/
structure Issue where
  html_url : String
  title : String
  body : String
  comments : Nat
  number : Nat
  deriving DecidableEq, Repr

/-- The `unsupported_indicators` set inside `is_good_issue_candidate`. -/
def UNSUPPORTED_INDICATORS : List String :=
  ["ui/ux", "design", "mobile", "ios", "android", "illustration",
   "logo", "graphic", "artwork", "translation", "i18n"]

/-- `is_good_issue_candidate` (bot.py 189-212).  The `if not issue` guard
concerns a falsy (empty) dict, which the typed model has no counterpart
for; search items always carry their fields. -/
def is_good_issue_candidate (issue : Issue) : Bool :=
  if issue.comments > MAX_ISSUE_COMMENTS then false
  else if issue.body.length < MIN_ISSUE_BODY_LENGTH then false
  else
    let title := strLower issue.title
    if UNSUPPORTED_INDICATORS.any (fun ind => strContains title ind) then false
    else true

/-- The scan over the search items inside `find_github_issues`
(bot.py 228-236): skip every issue whose URL is already processed, return
the first remaining qualified issue. -/
def findIssuesScan (processed : List String) : List Issue → Option Issue
  | [] => none
  | i :: rest =>
    if processed.contains i.html_url then findIssuesScan processed rest
    else if is_good_issue_candidate i then some i
    else findIssuesScan processed rest

/-- `find_github_issues` (bot.py 214-243).  The search request is an
oracle: `none` models a non-200 status or a raised `requests` exception
(both print and fall through to `return None`); `some items` models the
parsed `items` array of a 200 response. -/
def find_github_issues (fs : LocalFS) (searchResult : Option (List Issue)) : Option Issue :=
  let processed_issues := get_processed_issues fs
  match searchResult with
  | none => none
  | some items => findIssuesScan processed_issues items

/-- The persisted-state effect of the `__main__` block (bot.py 838-847):
if an issue was found, `process_issue` runs (performing some list of
metrics writes, and raising or not), a raise bumps the `errors` counter,
and the `finally` clause always appends the issue's URL to the processed
set.  `processOps` is the list of local-state writes `process_issue`
performed before returning or raising. -/
def mainRunFS (fs : LocalFS) (searchResult : Option (List Issue))
    (processOps : List StateOp) (processRaised : Bool) (now : Int) : LocalFS :=
  match find_github_issues fs searchResult with
  | none => fs
  | some issue =>
    let fs1 := runStateOps fs processOps
    let fs2 := if processRaised then metricsUpdate fs1 "errors" 1 now else fs1
    add_issue_to_processed fs2 issue.html_url

/-! ## Repository context (bot.py 273-308) -/

/-- The truncation marker appended at bot.py 295. -/
def TRUNCATION_MARKER : String := "\n... [TRUNCATED] ..."

/-- The clone working tree, relative path to file content.  A path absent
from the list models `full_path.is_file()` being false (or the read
raising, which the `except` at bot.py 303 turns into a skip as well). -/
abbrev RepoFS := List (String × String)

def lookupFile (fs : RepoFS) (p : String) : Option String :=
  (fs.find? (fun e => e.1 == p)).map (fun e => e.2)

/-- Python dict assignment `context["files"][rel_path] = content`: replace
any previous binding of the key. -/
def insertPair (m : List (String × String)) (k v : String) : List (String × String) :=
  (m.filter (fun e => e.1 != k)) ++ [(k, v)]

/-- Truncation at bot.py 294-295: `content[:MAX_FILE_SIZE] + marker` when
the content is longer than `MAX_FILE_SIZE`. -/
def truncateContent (content : String) : String :=
  if content.length > MAX_FILE_SIZE then
    String.mk (content.data.take MAX_FILE_SIZE) ++ TRUNCATION_MARKER
  else content

/-- The loop of `get_repo_context` (bot.py 283-305): skip a path that is
not safe or not a file; otherwise read, truncate, store, and stop as soon
as the accumulated size exceeds `MAX_CONTEXT_SIZE`. -/
def getRepoContextGo (fs : RepoFS) : List String → Nat → List (String × String) → List (String × String)
  | [], _, acc => acc
  | rel_path :: rest, total_size, acc =>
    if !(is_safe_to_modify rel_path) || (lookupFile fs rel_path).isNone then
      getRepoContextGo fs rest total_size acc
    else
      let content := truncateContent ((lookupFile fs rel_path).getD "")
      let acc2 := insertPair acc rel_path content
      let total2 := total_size + content.length
      if total2 > MAX_CONTEXT_SIZE then acc2
      else getRepoContextGo fs rest total2 acc2

/-- `get_repo_context` (bot.py 273-308), returning the `files` mapping of
the context (the dict is the only component of the returned structure). -/
def get_repo_context (fs : RepoFS) (relevant_files : List String) : List (String × String) :=
  getRepoContextGo fs relevant_files 0 []

/-! ## `select_relevant_files` response parsing (bot.py 330-368)

`re.search(r'\[(.*?)\]', response_text, re.DOTALL)` finds the leftmost
`[` that is followed by a `]` and lazily stops at the first such `]`;
the code then runs `json.loads` on `"[" + group(1) + "]"` and keeps the
result only when it is a list of strings. -/

/-- Characters up to (excluding) the first `]`, or `none` when there is
no `]` - the lazy `(.*?)` body of the regex. -/
def takeToClose : List Char → Option (List Char)
  | [] => none
  | c :: rest => if c == ']' then some [] else (takeToClose rest).map (fun l => c :: l)

/-- Group 1 of `re.search(r'\[(.*?)\]', text, re.DOTALL)`: scan for the
first `[`; the match succeeds iff a `]` follows it.  (If the first `[`
has no later `]`, no later `[` has one either, so the whole search fails.) -/
def extractBracketInner : List Char → Option (List Char)
  | [] => none
  | c :: rest => if c == '[' then takeToClose rest else extractBracketInner rest

/-- JSON whitespace accepted by `json.loads`. -/
def isJsonWS (c : Char) : Bool :=
  c == ' ' || c == '\t' || c == '\n' || c == '\r'

def skipWS (l : List Char) : List Char :=
  l.dropWhile isJsonWS

def hexVal (c : Char) : Option Nat :=
  if '0' ≤ c ∧ c ≤ '9' then some (c.toNat - '0'.toNat)
  else if 'a' ≤ c ∧ c ≤ 'f' then some (c.toNat - 'a'.toNat + 10)
  else if 'A' ≤ c ∧ c ≤ 'F' then some (c.toNat - 'A'.toNat + 10)
  else none

/-- Body of a JSON string after the opening quote: returns the decoded
characters and the remainder after the closing quote.  Handles the JSON
escapes; raw control characters are rejected, as `json.loads` does.
(`\uXXXX` maps through `Char.ofNat`, which sends the surrogate range to
`\0`; surrogate escapes never occur in the inputs considered here.)
`fuel` only needs to exceed the input length, each step consumes at least
one character. -/
def parseStringBody : Nat → List Char → Option (List Char × List Char)
  | 0, _ => none
  | _ + 1, [] => none
  | fuel + 1, c :: rest =>
    if c == '"' then some ([], rest)
    else if c == '\\' then
      match rest with
      | [] => none
      | e :: rest2 =>
        if e == '"' then (parseStringBody fuel rest2).map (fun pr => ('"' :: pr.1, pr.2))
        else if e == '\\' then (parseStringBody fuel rest2).map (fun pr => ('\\' :: pr.1, pr.2))
        else if e == '/' then (parseStringBody fuel rest2).map (fun pr => ('/' :: pr.1, pr.2))
        else if e == 'b' then (parseStringBody fuel rest2).map (fun pr => (Char.ofNat 8 :: pr.1, pr.2))
        else if e == 'f' then (parseStringBody fuel rest2).map (fun pr => (Char.ofNat 12 :: pr.1, pr.2))
        else if e == 'n' then (parseStringBody fuel rest2).map (fun pr => ('\n' :: pr.1, pr.2))
        else if e == 'r' then (parseStringBody fuel rest2).map (fun pr => (Char.ofNat 13 :: pr.1, pr.2))
        else if e == 't' then (parseStringBody fuel rest2).map (fun pr => ('\t' :: pr.1, pr.2))
        else if e == 'u' then
          match rest2 with
          | a :: b :: c2 :: d :: rest3 =>
            match hexVal a, hexVal b, hexVal c2, hexVal d with
            | some ha, some hb, some hc, some hd =>
              (parseStringBody fuel rest3).map
                (fun pr => (Char.ofNat (((ha * 16 + hb) * 16 + hc) * 16 + hd) :: pr.1, pr.2))
            | _, _, _, _ => none
          | _ => none
        else none
    else if c.toNat < 32 then none
    else (parseStringBody fuel rest).map (fun pr => (c :: pr.1, pr.2))

/-- String elements of a JSON array, positioned just after `[` or after a
separating comma.  Any element that is not a JSON string makes the whole
parse fail - which has exactly the observable effect of the source, where
a `json.loads` success with non-string elements falls through the
`isinstance` check to the same `return []` as a parse error. -/
def parseListItems : Nat → List Char → Option (List String)
  | 0, _ => none
  | fuel + 1, cs =>
    match skipWS cs with
    | [] => none
    | c :: rest =>
      if c == '"' then
        match parseStringBody (rest.length + 1) rest with
        | none => none
        | some (content, rest2) =>
          match skipWS rest2 with
          | [] => none
          | c2 :: rest3 =>
            if c2 == ']' then
              if (skipWS rest3).isEmpty then some [String.mk content] else none
            else if c2 == ',' then
              (parseListItems fuel rest3).map (fun tail => String.mk content :: tail)
            else none
      else none

/-- `json.loads` restricted to the shape the source keeps: a JSON array of
strings, with nothing but whitespace around it. -/
def parseJsonStringList (cs : List Char) : Option (List String) :=
  match skipWS cs with
  | [] => none
  | c :: rest =>
    if c == '[' then
      match skipWS rest with
      | [] => none
      | c2 :: rest2 =>
        if c2 == ']' then (if (skipWS rest2).isEmpty then some [] else none)
        else parseListItems (rest.length + 1) rest
    else none

/-- `select_relevant_files` (bot.py 330-368) as a function of the model
response; `none` models a raised Gemini call (the `except` at 366 returns
`[]`).  Extract the first bracketed span, parse it as a JSON list of
strings, and keep at most 5 entries; every failure path returns `[]`. -/
def select_relevant_files (response : Option String) : List String :=
  match response with
  | none => []
  | some response_text =>
    match extractBracketInner response_text.data with
    | none => []
    | some inner =>
      match parseJsonStringList ('[' :: (inner ++ [']'])) with
      | some selected_files => selected_files.take 5
      | none => []

example : select_relevant_files (some "[\"file1.py\", \"file2.js\"]") = ["file1.py", "file2.js"] := by decide
example : select_relevant_files (some "this is not json") = [] := by decide
example : select_relevant_files (some "Sure: [\"a.py\",\"b.py\",\"c.py\",\"d.py\",\"e.py\",\"f.py\"] done") = ["a.py", "b.py", "c.py", "d.py", "e.py"] := by decide
example : select_relevant_files (some "[\"a]b\", \"c\"]") = [] := by decide
example : parseJsonStringList "[\"a]b\", \"c\"]".data = some ["a]b", "c"] := by decide

/-! ## Task classification (bot.py 370-395) -/

/-- `classify_task`: strip and upper-case the model response and keep it
only when it is one of the four supported kinds; a raised call (`none`)
or any other text yields `"UNSUPPORTED"`. -/
def classify_task (response : Option String) : String :=
  match response with
  | none => "UNSUPPORTED"
  | some r =>
    let task_type := strUpper (strStrip r)
    if ["BUGFIX", "DOCUMENTATION", "FEATURE", "REFACTOR"].contains task_type then task_type
    else "UNSUPPORTED"

/-! ## Planning (bot.py 397-484) -/

/-- One entry of the plan's `files` array.  `path` is read with
`file_plan["path"]` (a missing key raises inside the same `try` and yields
`None`, so parsed entries always carry it); `change_type` is `none` when
the JSON object lacks the key. -/
structure FilePlan where
  path : String
  change_type : Option String
  deriving DecidableEq, Repr

/-- The plan JSON object: the fields the pipeline reads.  (`reasoning`
and the later `feedback` entry only flow into prompts.) -/
structure Plan where
  files : List FilePlan
  steps : List String
  deriving DecidableEq, Repr

/-- `create_implementation_plan` (bot.py 397-484).  `parsed` is the JSON
object extracted from the model response by `re.search(r'\{.*\}')` +
`json.loads`; `none` covers a raised call, no JSON object, or a JSON
error.  The function requires a nonempty context, a nonempty `files`
array, keeps only planned files that are keys of the context, fails when
none is left, and truncates to at most 2 files. -/
def create_implementation_plan (ctxFiles : List (String × String)) (parsed : Option Plan) : Option Plan :=
  if ctxFiles.isEmpty then none
  else
    match parsed with
    | none => none
    | some plan =>
      if plan.files.isEmpty then none
      else
        let valid_files := plan.files.filter (fun fp => (ctxFiles.map (fun e => e.1)).contains fp.path)
        if valid_files.isEmpty then none
        else some (Plan.mk (valid_files.take 2) plan.steps)

/-! ## Implementation and critique (bot.py 486-599) -/

/-- One entry of the `implementations` dict. -/
structure Impl where
  content : String
  change_type : String
  deriving DecidableEq, Repr

/-- One entry of the `reviews` dict, as parsed from the critic's JSON
response (after the code-block cleanup of bot.py 582-584). -/
structure Review where
  requires_re_implementation : Bool
  review_summary : String
  refined_code : String
  deriving DecidableEq, Repr

/-- `implement_changes` (bot.py 486-534): one model call per planned
file; a raised call (`none`) prints and skips that file, a successful one
stores the stripped response under the file's path with the plan's
`change_type` (default `"REWRITE"`). -/
def implement_changes (plan : Plan) (response : String → Option String) : List (String × Impl) :=
  plan.files.filterMap (fun file_plan =>
    (response file_plan.path).map (fun r =>
      (file_plan.path, Impl.mk (strStrip r) (file_plan.change_type.getD "REWRITE"))))

/-- The fallback review installed by the `except` at bot.py 591-597. -/
def fallbackReview (draft_content : String) : Review :=
  Review.mk false "Critique failed, using original implementation." draft_content

/-- `critique_and_refine` (bot.py 536-599): one model call per
implemented file; `none` models a raised call or a response without a
JSON object (bot.py 589 raises, the `except` catches both), in which case
the fallback review keeps the draft; otherwise the parsed review is
stored. -/
def critique_and_refine (implementations : List (String × Impl))
    (response : String → Option Review) : List (String × Review) :=
  implementations.map (fun pi =>
    match response pi.1 with
    | some review => (pi.1, review)
    | none => (pi.1, fallbackReview pi.2.content))

/-- The `change_type` recovery at bot.py 735:
`next((f["change_type"] for f in plan["files"] if f["path"] == file_path), "REWRITE")`.
A matching plan entry without the key raises `KeyError` (modelled by
`none`); with no matching entry the default `"REWRITE"` is produced. -/
def changeTypeFor (plan : Plan) (file_path : String) : Option String :=
  match plan.files.find? (fun f => f.path == file_path) with
  | some f => f.change_type
  | none => some "REWRITE"

/-- The `final_implementations` construction (bot.py 732-739); `none`
models the `KeyError` of `changeTypeFor` escaping `process_issue`. -/
def mkFinalImpls (plan : Plan) (reviews : List (String × Review)) : Option (List (String × Impl)) :=
  reviews.mapM (fun pr =>
    (changeTypeFor plan pr.1).map (fun ct => (pr.1, Impl.mk pr.2.refined_code ct)))

/-! ## `process_issue` (bot.py 648-824)

The run is modelled as a trace of the pipeline stages that execute,
driven by an environment of oracle results for the external systems.
`Metrics` writes and the PR-stage HTTP traffic are captured in the
result record. -/

/-- A pipeline stage of `process_issue` (plus `cleanup` for the
`shutil.rmtree` calls). -/
inductive Stage where
  | classify | fork | clone | analyze | planning
  | implementS | critiqueS | applyFiles | validateS
  | gitOps | gitPush | prCreate | cleanup
  deriving DecidableEq, Repr

/-- Oracle results for the external calls a run of `process_issue` makes.
`none` / `false` model the call raising (or returning a failure status
that the source treats the same way). -/
structure Env where
  classifyResponse : Option String
  forkOk : Bool
  cloneOk : Bool
  selectResponse : Option String
  repoFS : RepoFS
  planParsed : Option Plan
  implResponse1 : String → Option String
  critResponse1 : String → Option Review
  implResponse2 : String → Option String
  critResponse2 : String → Option Review
  applyOk : Bool
  validateOk : Bool
  gitSetupOk : Bool
  hasChanges : Bool
  gitPushOk : Bool

/-- Observable outcome of one `process_issue` run. -/
structure RunResult where
  trace : List Stage
  reviews : List (String × Review)
  finalImpls : Option (List (String × Impl))
  prPosted : Bool

/-- The tail of `process_issue` from `apply_changes` on (bot.py 741-823),
shared by the one-round and two-round paths.  `pre` is the trace built so
far.  The `mkFinalImpls` failure aborts with nothing caught inside
`process_issue` (bot.py 735 raises `KeyError`); an `apply_changes` failure
prints and re-raises (bot.py 617-619), likewise leaving the temp dir
behind; a validation or git failure cleans up and returns.  At the PR
stage, bot.py 788 reads `refined_implementations` - a name bound nowhere
in the module - so Python raises `NameError` there, before the request to
the pulls endpoint is built; the `except` at 818 prints it and the run
proceeds to cleanup.  Hence `prPosted` is `false` on every path. -/
def finishRun (env : Env) (pre : List Stage) (reviews : List (String × Review))
    (plan : Plan) : RunResult :=
  match mkFinalImpls plan reviews with
  | none => RunResult.mk pre reviews none false
  | some final_implementations =>
    if env.applyOk = false then
      RunResult.mk (pre ++ [Stage.applyFiles]) reviews (some final_implementations) false
    else if env.validateOk = false then
      RunResult.mk (pre ++ [Stage.applyFiles, Stage.validateS, Stage.cleanup]) reviews
        (some final_implementations) false
    else if env.gitSetupOk = false then
      RunResult.mk (pre ++ [Stage.applyFiles, Stage.validateS, Stage.gitOps, Stage.cleanup]) reviews
        (some final_implementations) false
    else if env.hasChanges = false then
      RunResult.mk (pre ++ [Stage.applyFiles, Stage.validateS, Stage.gitOps, Stage.cleanup]) reviews
        (some final_implementations) false
    else if env.gitPushOk = false then
      RunResult.mk (pre ++ [Stage.applyFiles, Stage.validateS, Stage.gitOps, Stage.cleanup]) reviews
        (some final_implementations) false
    else
      RunResult.mk
        (pre ++ [Stage.applyFiles, Stage.validateS, Stage.gitOps, Stage.gitPush,
                 Stage.prCreate, Stage.cleanup])
        reviews (some final_implementations) false

/-- `process_issue` (bot.py 648-824).  Straight-line control flow: an
unsupported classification, a failed fork, a failed git setup, an empty
context, a failed plan, or an empty implementation set each abort the run
(with cleanup where the source calls `shutil.rmtree`); otherwise the
critique runs, at most one re-implementation round follows when some
review asks for it, and the run finishes through `finishRun`. -/
def process_issue (env : Env) : RunResult :=
  if classify_task env.classifyResponse = "UNSUPPORTED" then
    RunResult.mk [Stage.classify] [] none false
  else if env.forkOk = false then
    RunResult.mk [Stage.classify, Stage.fork] [] none false
  else if env.cloneOk = false then
    RunResult.mk [Stage.classify, Stage.fork, Stage.clone, Stage.cleanup] [] none false
  else
    let repo_context := get_repo_context env.repoFS (select_relevant_files env.selectResponse)
    if repo_context.isEmpty then
      RunResult.mk [Stage.classify, Stage.fork, Stage.clone, Stage.analyze, Stage.cleanup] [] none false
    else
      match create_implementation_plan repo_context env.planParsed with
      | none =>
        RunResult.mk [Stage.classify, Stage.fork, Stage.clone, Stage.analyze, Stage.planning,
                      Stage.cleanup] [] none false
      | some plan =>
        let implementations := implement_changes plan env.implResponse1
        if implementations.isEmpty then
          RunResult.mk [Stage.classify, Stage.fork, Stage.clone, Stage.analyze, Stage.planning,
                        Stage.implementS, Stage.cleanup] [] none false
        else
          let reviews := critique_and_refine implementations env.critResponse1
          if reviews.any (fun pr => pr.2.requires_re_implementation) then
            let implementations2 := implement_changes plan env.implResponse2
            let reviews2 := critique_and_refine implementations2 env.critResponse2
            finishRun env
              [Stage.classify, Stage.fork, Stage.clone, Stage.analyze, Stage.planning,
               Stage.implementS, Stage.critiqueS, Stage.implementS, Stage.critiqueS]
              reviews2 plan
          else
            finishRun env
              [Stage.classify, Stage.fork, Stage.clone, Stage.analyze, Stage.planning,
               Stage.implementS, Stage.critiqueS]
              reviews plan

/-- An environment in which every external call succeeds: the run reaches
the PR stage. -/
def happyEnv : Env :=
  Env.mk (some "BUGFIX") true true (some "[\"a.py\"]") [("a.py", "print(1)")]
    (some (Plan.mk [FilePlan.mk "a.py" (some "REWRITE")] ["fix it"]))
    (fun _ => some "print(2)") (fun _ => some (Review.mk false "fine" "print(2)"))
    (fun _ => some "print(3)") (fun _ => some (Review.mk false "fine" "print(3)"))
    true true true true true

/-- `happyEnv`, except that every critique call raises. -/
def critFailEnv : Env :=
  Env.mk (some "BUGFIX") true true (some "[\"a.py\"]") [("a.py", "print(1)")]
    (some (Plan.mk [FilePlan.mk "a.py" (some "REWRITE")] ["fix it"]))
    (fun _ => some "print(2)") (fun _ => none)
    (fun _ => some "print(3)") (fun _ => none)
    true true true true true

example : (process_issue happyEnv).trace =
    [Stage.classify, Stage.fork, Stage.clone, Stage.analyze, Stage.planning,
     Stage.implementS, Stage.critiqueS, Stage.applyFiles, Stage.validateS,
     Stage.gitOps, Stage.gitPush, Stage.prCreate, Stage.cleanup] := by decide

example : (process_issue critFailEnv).trace =
    [Stage.classify, Stage.fork, Stage.clone, Stage.analyze, Stage.planning,
     Stage.implementS, Stage.critiqueS, Stage.applyFiles, Stage.validateS,
     Stage.gitOps, Stage.gitPush, Stage.prCreate, Stage.cleanup] := by decide

example : (process_issue happyEnv).prPosted = false := by decide

/-! ## Lemmas about the persisted-state file system -/

theorem lookupFS_writeFS_same (fs : LocalFS) (n : String) (c : FileContent) :
    lookupFS (writeFS fs n c) n = some c := by
  unfold lookupFS writeFS
  rw [List.find?_append]
  have h1 : List.find? (fun e => e.1 == n) (fs.filter (fun e => e.1 != n)) = none := by
    rw [List.find?_eq_none]
    intro x hx
    rw [List.mem_filter] at hx
    have hxn := hx.2
    simp only [bne_iff_ne, ne_eq] at hxn
    simp [hxn]
  rw [h1, List.find?_cons_of_pos _ (by simp)]
  simp

theorem lookupFS_writeFS_ne (fs : LocalFS) (n m : String) (c : FileContent)
    (h : m ≠ n) : lookupFS (writeFS fs n c) m = lookupFS fs m := by
  unfold lookupFS writeFS
  rw [List.find?_append]
  have h2 : List.find? (fun e => e.1 == m) [(n, c)] = none := by
    rw [List.find?_eq_none]
    intro x hx
    rw [List.mem_singleton] at hx
    subst hx
    simp [Ne.symm h]
  have h3 : List.find? (fun e => e.1 == m) (fs.filter (fun e => e.1 != n))
      = List.find? (fun e => e.1 == m) fs := by
    rw [List.find?_filter]
    congr 1
    funext a
    by_cases hm : a.1 = m
    · simp [hm, h]
    · simp [hm]
  rw [h2, h3]
  simp

theorem writeFS_writeFS_same (fs : LocalFS) (n : String) (c c' : FileContent) :
    writeFS (writeFS fs n c) n c' = writeFS fs n c' := by
  simp [writeFS, List.filter_append, List.filter_filter]

theorem get_processed_nodup (fs : LocalFS) : (get_processed_issues fs).Nodup := by
  unfold get_processed_issues
  split
  · exact List.nodup_dedup _
  · exact List.nodup_nil

theorem get_processed_add (fs : LocalFS) (u : String) :
    get_processed_issues (add_issue_to_processed fs u)
      = (get_processed_issues fs).insert u := by
  unfold add_issue_to_processed
  conv_lhs => unfold get_processed_issues
  rw [lookupFS_writeFS_same]
  exact List.dedup_eq_self.mpr ((get_processed_nodup fs).insert)

/-- Claim C4: `add_issue_to_processed` is idempotent and append-only -
one add makes the processed set the old set plus the URL, a second
identical add changes nothing at all (even at the file level), and every
previously stored URL survives. -/
theorem c4_processed_set_append_only (fs : LocalFS) (u : String) :
    (get_processed_issues (add_issue_to_processed fs u)).toFinset
        = insert u (get_processed_issues fs).toFinset
    ∧ add_issue_to_processed (add_issue_to_processed fs u) u = add_issue_to_processed fs u
    ∧ (get_processed_issues fs).toFinset
        ⊆ (get_processed_issues (add_issue_to_processed fs u)).toFinset := by
  refine ⟨?_, ?_, ?_⟩
  · rw [get_processed_add]
    apply Finset.ext
    intro a
    simp [List.mem_toFinset, List.mem_insert_iff]
  · rw [show add_issue_to_processed (add_issue_to_processed fs u) u
          = writeFS (add_issue_to_processed fs u) PROCESSED_ISSUES_FILE
              (FileContent.processedList
                ((get_processed_issues (add_issue_to_processed fs u)).insert u)) from rfl]
    rw [get_processed_add, List.insert_of_mem (List.mem_insert_self u _)]
    rw [show add_issue_to_processed fs u
          = writeFS fs PROCESSED_ISSUES_FILE
              (FileContent.processedList ((get_processed_issues fs).insert u)) from rfl]
    exact writeFS_writeFS_same fs PROCESSED_ISSUES_FILE _ _
  · rw [get_processed_add]
    intro a ha
    simp only [List.mem_toFinset] at *
    exact List.mem_insert_of_mem ha

/-! ## C6: persisted state beyond the processed-issues file -/

/-- Claim C6 counterexample: `Metrics.update` - called, among others, on
every search exception and at the end of every completed run - changes
the persisted file `bot_metrics.json`, which is not the processed-issues
file.  The claim that a run modifies no persistent local file other than
the processed-issues file is therefore false. -/
theorem c6_counterexample_metrics_file :
    lookupFS (metricsUpdate [] "errors" 1 0) METRICS_FILE
        ≠ lookupFS ([] : LocalFS) METRICS_FILE
    ∧ METRICS_FILE ≠ PROCESSED_ISSUES_FILE := by decide

theorem lookupFS_applyStateOp_ne (fs : LocalFS) (op : StateOp) (name : String)
    (h1 : name ≠ PROCESSED_ISSUES_FILE) (h2 : name ≠ METRICS_FILE) :
    lookupFS (applyStateOp fs op) name = lookupFS fs name := by
  cases op with
  | addProcessed u =>
    show lookupFS (add_issue_to_processed fs u) name = lookupFS fs name
    exact lookupFS_writeFS_ne _ _ _ _ h1
  | metricsBump k v now =>
    show lookupFS (metricsUpdate fs k v now) name = lookupFS fs name
    unfold metricsUpdate
    split
    all_goals first
      | rfl
      | exact lookupFS_writeFS_ne _ _ _ _ h2

/-- Claim C6 amended: a run's persisted-state writes (every one of which
is a `StateOp`) leave every local file other than the processed-issues
file and the metrics file untouched. -/
theorem c6_persisted_frame (fs : LocalFS) (ops : List StateOp) (name : String)
    (h1 : name ≠ PROCESSED_ISSUES_FILE) (h2 : name ≠ METRICS_FILE) :
    lookupFS (runStateOps fs ops) name = lookupFS fs name := by
  induction ops generalizing fs with
  | nil => rfl
  | cons op rest ih =>
    unfold runStateOps
    rw [ih (applyStateOp fs op), lookupFS_applyStateOp_ne fs op name h1 h2]

theorem c6_persisted_frame_witness :
    "notes.txt" ≠ PROCESSED_ISSUES_FILE ∧ "notes.txt" ≠ METRICS_FILE
    ∧ lookupFS (runStateOps []
        [StateOp.addProcessed "https://github.com/o/r/issues/1",
         StateOp.metricsBump "errors" 1 0]) "notes.txt"
      = lookupFS ([] : LocalFS) "notes.txt" :=
  ⟨by decide, by decide,
    c6_persisted_frame []
      [StateOp.addProcessed "https://github.com/o/r/issues/1",
       StateOp.metricsBump "errors" 1 0] "notes.txt" (by decide) (by decide)⟩

/-! ## C1: processed issues are never reprocessed -/

theorem findIssuesScan_not_processed (processed : List String) (items : List Issue)
    (issue : Issue) (h : findIssuesScan processed items = some issue) :
    processed.contains issue.html_url = false := by
  induction items with
  | nil => simp [findIssuesScan] at h
  | cons i rest ih =>
    unfold findIssuesScan at h
    split at h
    · exact ih h
    · split at h
      · rename_i hc _
        cases h
        simpa using hc
      · exact ih h

/-- Claim C1: `find_github_issues` never returns an issue whose URL is in
the persisted processed set, and the `__main__` block's `finally` clause
puts the attempted issue's URL into the set at the end of the run -
whether `process_issue` returned normally or raised, and whatever
metrics writes it performed in between. -/
theorem c1_no_reprocessing (fs : LocalFS) (searchResult : Option (List Issue))
    (processOps : List StateOp) (processRaised : Bool) (now : Int) (issue : Issue)
    (h : find_github_issues fs searchResult = some issue) :
    issue.html_url ∉ get_processed_issues fs
    ∧ issue.html_url ∈
        get_processed_issues (mainRunFS fs searchResult processOps processRaised now) := by
  constructor
  · unfold find_github_issues at h
    cases searchResult with
    | none => simp at h
    | some items =>
      have := findIssuesScan_not_processed _ _ _ h
      intro hmem
      rw [List.contains_eq_any_beq] at this
      simp [List.any_eq_true] at this
      exact this _ hmem rfl
  · unfold mainRunFS
    rw [h]
    rw [get_processed_add]
    exact List.mem_insert_self _ _

/-- A concrete already-processed issue. -/
def issueA : Issue :=
  Issue.mk "https://github.com/o/r/issues/1" "bug A"
    "A body long enough to pass the minimum issue body length check, clearly." 0 1

/-- A concrete fresh issue. -/
def issueB : Issue :=
  Issue.mk "https://github.com/o/r/issues/2" "bug B"
    "A body long enough to pass the minimum issue body length check, clearly." 0 2

/-- A local directory whose processed-issues file already records `issueA`. -/
def fs0 : LocalFS := [(PROCESSED_ISSUES_FILE, FileContent.processedList [issueA.html_url])]

def items0 : List Issue := [issueA, issueB]

def ops0 : List StateOp := [StateOp.metricsBump "errors" 1 7]

theorem c1_no_reprocessing_witness :
    find_github_issues fs0 (some items0) = some issueB
    ∧ issueB.html_url ∉ get_processed_issues fs0
    ∧ issueB.html_url ∈ get_processed_issues (mainRunFS fs0 (some items0) ops0 true 7) :=
  ⟨by decide,
    (c1_no_reprocessing fs0 (some items0) ops0 true 7 issueB (by decide)).1,
    (c1_no_reprocessing fs0 (some items0) ops0 true 7 issueB (by decide)).2⟩

/-! ## C3: the safety filter is not a pure denylist -/

/-- Claim C3 evaluated at the failing input.  `src/component.jsx` meets no
denylist condition (no blacklisted directory, basename not in the unsafe
names, no unsafe pattern), so the claim - and the repository's own unit
test `test_jsx_is_safe` - says the path is safe; the code's extension
allowlist rejects it. -/
theorem c3_jsx_rejected_by_allowlist :
    is_safe_to_modify "src/component.jsx" = false
    ∧ inBlacklistedDir "src/component.jsx" = false
    ∧ DENY_FILE_NAMES.contains (osBasename "src/component.jsx") = false
    ∧ denySuffixMatch "src/component.jsx" = false
    ∧ denyDirMatch "src/component.jsx" = false := by decide

/-! ## C2: the pull request is never opened -/

theorem finishRun_prPosted (env : Env) (pre : List Stage)
    (reviews : List (String × Review)) (plan : Plan) :
    (finishRun env pre reviews plan).prPosted = false := by
  unfold finishRun
  split
  · rfl
  · split
    · rfl
    · split
      · rfl
      · split
        · rfl
        · split
          · rfl
          · split
            · rfl
            · rfl

/-- Claim C2: `process_issue` never posts to the pulls endpoint, even on a
run where every stage up to and including the push succeeds.  Line 788
reads `refined_implementations`, a name bound nowhere in `bot.py`, so the
PR stage raises `NameError` before the request is built (the module's own
tests confirm the intent: `test_bot.py` imports a `get_modified_files`
helper that `bot.py` does not define). -/
theorem c2_pr_never_posted :
    (∀ env : Env, (process_issue env).prPosted = false)
    ∧ Stage.gitPush ∈ (process_issue happyEnv).trace
    ∧ Stage.prCreate ∈ (process_issue happyEnv).trace := by
  refine ⟨?_, by decide, by decide⟩
  intro env
  unfold process_issue
  dsimp only
  split
  · rfl
  · split
    · rfl
    · split
      · rfl
      · split
        · rfl
        · split
          · rfl
          · split
            · rfl
            · split
              · exact finishRun_prPosted _ _ _ _
              · exact finishRun_prPosted _ _ _ _

/-! ## C5: planned files exist in the repository context -/

/-- Claim C5: whenever `create_implementation_plan` returns a plan, every
planned path is a key of the context's file mapping; and when no path of
the parsed plan is such a key, the function returns `None`. -/
theorem c5_plan_files_exist (ctxFiles : List (String × String)) (parsed : Option Plan) :
    (∀ plan, create_implementation_plan ctxFiles parsed = some plan →
        plan.files.all (fun fp => (ctxFiles.map (fun e => e.1)).contains fp.path) = true)
    ∧ (∀ p, parsed = some p →
        p.files.all (fun fp => !((ctxFiles.map (fun e => e.1)).contains fp.path)) = true →
        create_implementation_plan ctxFiles parsed = none) := by
  constructor
  · intro plan h
    unfold create_implementation_plan at h
    dsimp only at h
    split at h
    · exact absurd h (by simp)
    · split at h
      · exact absurd h (by simp)
      · rename_i p
        split at h
        · exact absurd h (by simp)
        · split at h
          · exact absurd h (by simp)
          · rw [Option.some_inj] at h
            subst h
            rw [List.all_eq_true]
            intro fp hfp
            have hmem := List.mem_of_mem_take hfp
            rw [List.mem_filter] at hmem
            exact hmem.2
  · intro p hp hall
    subst hp
    unfold create_implementation_plan
    dsimp only
    by_cases hempty : ctxFiles.isEmpty
    · rw [if_pos hempty]
    · rw [if_neg hempty]
      have hfil : p.files.filter
          (fun fp => (ctxFiles.map (fun e => e.1)).contains fp.path) = [] := by
        rw [List.filter_eq_nil_iff]
        intro fp hfp
        rw [List.all_eq_true] at hall
        have h5 := hall fp hfp
        rw [Bool.not_eq_true'] at h5
        rw [h5]
        simp
      by_cases hpf : p.files.isEmpty
      · rw [if_pos hpf]
      · rw [if_neg hpf]
        rw [hfil]
        rfl

/-- A one-file context. -/
def ctx0 : List (String × String) := [("a.py", "print(1)")]

/-- A parsed plan naming one existing and one missing file. -/
def parsed0 : Option Plan :=
  some (Plan.mk [FilePlan.mk "a.py" (some "REWRITE"), FilePlan.mk "ghost.py" none] ["step"])

/-- A parsed plan naming only a missing file. -/
def parsed1 : Option Plan :=
  some (Plan.mk [FilePlan.mk "ghost.py" none] ["step"])

def plan0 : Plan := Plan.mk [FilePlan.mk "a.py" (some "REWRITE")] ["step"]

theorem c5_plan_files_exist_witness :
    create_implementation_plan ctx0 parsed0 = some plan0
    ∧ plan0.files.all (fun fp => (ctx0.map (fun e => e.1)).contains fp.path) = true
    ∧ create_implementation_plan ctx0 parsed1 = none :=
  ⟨by decide,
    (c5_plan_files_exist ctx0 parsed0).1 plan0 (by decide),
    (c5_plan_files_exist ctx0 parsed1).2 (Plan.mk [FilePlan.mk "ghost.py" none] ["step"])
      (by decide) (by decide)⟩

/-! ## C9: parsing of the file-selection response -/

/-- Claim C9 counterexample: the response `["a]b", "c"]` is itself a JSON
list of strings, so the claim requires its first 5 entries to be
returned; but the lazy regex `\[(.*?)\]` cuts the span at the `]` inside
the first string, `json.loads` fails on `["a]`, and the function returns
`[]`. -/
theorem c9_counterexample_lazy_bracket :
    parseJsonStringList "[\"a]b\", \"c\"]".data = some ["a]b", "c"]
    ∧ select_relevant_files (some "[\"a]b\", \"c\"]") = []
    ∧ (["a]b", "c"] : List String).take 5 ≠ [] := by decide

/-- The amended parsing contract, written from the amended claim's words:
at most 5 strings come back; the span between the first `[` and the first
`]` after it is extracted and wrapped in brackets; when that fragment
parses as a JSON list of strings the first 5 entries of the parse are
returned, and in every other case (including a raised model call) the
result is the empty list. -/
def selectRelevantFilesSpec (response : Option String) : List String :=
  match response with
  | none => []
  | some text =>
    match (extractBracketInner text.data).bind
        (fun inner => parseJsonStringList ('[' :: (inner ++ [']']))) with
    | some files => files.take 5
    | none => []

/-- Claim C9 amended: `select_relevant_files` returns at most 5 strings
and behaves exactly as the amended contract `selectRelevantFilesSpec`
describes. -/
theorem c9_select_parse_amended (response : Option String) :
    (select_relevant_files response).length ≤ 5
    ∧ select_relevant_files response = selectRelevantFilesSpec response := by
  constructor
  · unfold select_relevant_files
    split
    · simp
    · split
      · simp
      · split
        · exact List.length_take_le 5 _
        · simp
  · unfold select_relevant_files selectRelevantFilesSpec
    cases response with
    | none => rfl
    | some text =>
      dsimp only
      cases hextract : extractBracketInner text.data with
      | none => rfl
      | some inner => rfl

/-! ## C10: the gathered context is safe and bounded -/

/-- Total length of the stored file contents of a context. -/
def contextTotalSize (ctx : List (String × String)) : Nat :=
  (ctx.map (fun e => e.2.length)).sum

theorem truncateContent_length (content : String) :
    (truncateContent content).length ≤ MAX_FILE_SIZE + TRUNCATION_MARKER.length := by
  unfold truncateContent
  split
  · rw [String.length_append]
    have h1 : (String.mk (content.data.take MAX_FILE_SIZE)).length ≤ MAX_FILE_SIZE := by
      show (content.data.take MAX_FILE_SIZE).length ≤ MAX_FILE_SIZE
      exact List.length_take_le _ _
    omega
  · rename_i h
    omega

theorem contextTotalSize_insertPair_le (acc : List (String × String)) (k v : String) :
    contextTotalSize (insertPair acc k v) ≤ contextTotalSize acc + v.length := by
  unfold contextTotalSize insertPair
  rw [List.map_append, List.sum_append]
  simp only [List.map_cons, List.map_nil, List.sum_cons, List.sum_nil]
  have hsub : ((acc.filter (fun e => e.1 != k)).map (fun e => e.2.length)).sum
      ≤ (acc.map (fun e => e.2.length)).sum :=
    List.Sublist.sum_le_sum ((List.filter_sublist acc).map _) (fun a _ => Nat.zero_le a)
  omega

theorem all_insertPair {p : String × String → Bool} (acc : List (String × String))
    (k v : String) (hacc : acc.all p = true) (hkv : p (k, v) = true) :
    (insertPair acc k v).all p = true := by
  rw [List.all_eq_true] at *
  intro x hx
  unfold insertPair at hx
  rw [List.mem_append] at hx
  cases hx with
  | inl h => exact hacc x (List.mem_of_mem_filter h)
  | inr h =>
    rw [List.mem_singleton] at h
    subst h
    exact hkv

theorem getRepoContextGo_invariant (fs : RepoFS) (rest : List String) :
    ∀ (total : Nat) (acc : List (String × String)),
      acc.all (fun e => is_safe_to_modify e.1) = true →
      acc.all (fun e => decide (e.2.length ≤ MAX_FILE_SIZE + TRUNCATION_MARKER.length)) = true →
      contextTotalSize acc ≤ total →
      total ≤ MAX_CONTEXT_SIZE →
      (getRepoContextGo fs rest total acc).all (fun e => is_safe_to_modify e.1) = true
      ∧ (getRepoContextGo fs rest total acc).all
          (fun e => decide (e.2.length ≤ MAX_FILE_SIZE + TRUNCATION_MARKER.length)) = true
      ∧ contextTotalSize (getRepoContextGo fs rest total acc)
          ≤ MAX_CONTEXT_SIZE + MAX_FILE_SIZE + TRUNCATION_MARKER.length := by
  induction rest with
  | nil =>
    intro total acc h1 h2 h3 h4
    refine ⟨h1, h2, ?_⟩
    unfold getRepoContextGo
    omega
  | cons p rest ih =>
    intro total acc h1 h2 h3 h4
    unfold getRepoContextGo
    split
    · exact ih total acc h1 h2 h3 h4
    · rename_i hcond
      rw [Bool.or_eq_true, not_or] at hcond
      obtain ⟨hA, hB⟩ := hcond
      have hsafe : is_safe_to_modify p = true := by
        simpa using hA
      have hlen : (truncateContent ((lookupFile fs p).getD "")).length
          ≤ MAX_FILE_SIZE + TRUNCATION_MARKER.length := truncateContent_length _
      have hall1 : (insertPair acc p (truncateContent ((lookupFile fs p).getD ""))).all
          (fun e => is_safe_to_modify e.1) = true :=
        all_insertPair acc _ _ h1 hsafe
      have hall2 : (insertPair acc p (truncateContent ((lookupFile fs p).getD ""))).all
          (fun e => decide (e.2.length ≤ MAX_FILE_SIZE + TRUNCATION_MARKER.length)) = true :=
        all_insertPair acc _ _ h2 (decide_eq_true hlen)
      have hsize : contextTotalSize (insertPair acc p (truncateContent ((lookupFile fs p).getD "")))
          ≤ total + (truncateContent ((lookupFile fs p).getD "")).length := by
        have := contextTotalSize_insertPair_le acc p (truncateContent ((lookupFile fs p).getD ""))
        omega
      dsimp only
      split
      · rename_i htot
        refine ⟨hall1, hall2, ?_⟩
        omega
      · rename_i htot
        exact ih _ _ hall1 hall2 hsize (by omega)

/-- Claim C10: every entry of the context built by `get_repo_context` has
a key that passed `is_safe_to_modify`, a value at most `MAX_FILE_SIZE`
plus the truncation marker long, and the total stored size never exceeds
`MAX_CONTEXT_SIZE` by more than the one file that crossed the limit
(the loop breaks as soon as the accumulated size passes the bound). -/
theorem c10_context_safe_bounded (fs : RepoFS) (relevant_files : List String) :
    (get_repo_context fs relevant_files).all (fun e => is_safe_to_modify e.1) = true
    ∧ (get_repo_context fs relevant_files).all
        (fun e => decide (e.2.length ≤ MAX_FILE_SIZE + TRUNCATION_MARKER.length)) = true
    ∧ contextTotalSize (get_repo_context fs relevant_files)
        ≤ MAX_CONTEXT_SIZE + MAX_FILE_SIZE + TRUNCATION_MARKER.length :=
  getRepoContextGo_invariant fs relevant_files 0 [] rfl rfl (Nat.le_refl 0)
    (Nat.zero_le _)

/-! ## Shared lemmas about `finishRun` and the final implementations -/

theorem finishRun_spec (env : Env) (pre : List Stage)
    (reviews : List (String × Review)) (plan : Plan) :
    (finishRun env pre reviews plan).reviews = reviews
    ∧ (finishRun env pre reviews plan).finalImpls = mkFinalImpls plan reviews
    ∧ (finishRun env pre reviews plan).trace.count Stage.implementS
        = pre.count Stage.implementS
    ∧ (finishRun env pre reviews plan).trace.count Stage.critiqueS
        = pre.count Stage.critiqueS := by
  unfold finishRun
  split
  · rename_i heq
    exact ⟨rfl, heq.symm, rfl, rfl⟩
  · rename_i fi heq
    split
    · refine ⟨rfl, heq.symm, ?_, ?_⟩ <;>
        simp [List.count_append, List.count_cons, List.count_nil]
    · split
      · refine ⟨rfl, heq.symm, ?_, ?_⟩ <;>
          simp [List.count_append, List.count_cons, List.count_nil]
      · split
        · refine ⟨rfl, heq.symm, ?_, ?_⟩ <;>
            simp [List.count_append, List.count_cons, List.count_nil]
        · split
          · refine ⟨rfl, heq.symm, ?_, ?_⟩ <;>
              simp [List.count_append, List.count_cons, List.count_nil]
          · split
            · refine ⟨rfl, heq.symm, ?_, ?_⟩ <;>
                simp [List.count_append, List.count_cons, List.count_nil]
            · refine ⟨rfl, heq.symm, ?_, ?_⟩ <;>
                simp [List.count_append, List.count_cons, List.count_nil]

theorem mkFinalImpls_map_content (plan : Plan) (reviews : List (String × Review))
    (fi : List (String × Impl)) (h : mkFinalImpls plan reviews = some fi) :
    fi.map (fun pc => (pc.1, pc.2.content))
      = reviews.map (fun pr => (pr.1, pr.2.refined_code)) := by
  induction reviews generalizing fi with
  | nil =>
    unfold mkFinalImpls at h
    simp only [List.mapM_nil] at h
    cases h
    rfl
  | cons pr rest ih =>
    unfold mkFinalImpls at h ih
    rw [List.mapM_cons] at h
    cases hct : changeTypeFor plan pr.1 with
    | none => rw [hct] at h; cases h
    | some ct =>
      rw [hct] at h
      cases hrest : rest.mapM (fun pr =>
          (changeTypeFor plan pr.1).map (fun ct => (pr.1, Impl.mk pr.2.refined_code ct))) with
      | none => rw [hrest] at h; cases h
      | some tl =>
        rw [hrest] at h
        have h2 : (pr.1, Impl.mk pr.2.refined_code ct) :: tl = fi := by simpa using h
        subst h2
        simp only [List.map_cons]
        rw [ih tl hrest]

theorem changeTypeFor_isSome (plan : Plan) (p : String)
    (h : ∀ fp ∈ plan.files, fp.change_type.isSome = true) :
    (changeTypeFor plan p).isSome = true := by
  unfold changeTypeFor
  cases hf : plan.files.find? (fun f => f.path == p) with
  | none => rfl
  | some f => exact h f (List.mem_of_find?_eq_some hf)

theorem mkFinalImpls_isSome (plan : Plan) (reviews : List (String × Review))
    (h : ∀ fp ∈ plan.files, fp.change_type.isSome = true) :
    (mkFinalImpls plan reviews).isSome = true := by
  unfold mkFinalImpls
  induction reviews with
  | nil => rfl
  | cons pr rest ih =>
    rw [List.mapM_cons]
    have h1 := changeTypeFor_isSome plan pr.1 h
    cases hct : changeTypeFor plan pr.1 with
    | none => rw [hct] at h1; cases h1
    | some ct =>
      rw [Option.isSome_iff_exists] at ih
      obtain ⟨tl, htl⟩ := ih
      rw [htl]
      simp

theorem finishRun_applyFiles_mem (env : Env) (pre : List Stage)
    (reviews : List (String × Review)) (plan : Plan)
    (h : (mkFinalImpls plan reviews).isSome = true) :
    Stage.applyFiles ∈ (finishRun env pre reviews plan).trace := by
  unfold finishRun
  split
  · rename_i heq
    rw [heq] at h
    simp at h
  · rename_i fi heq
    repeat' split
    all_goals simp

theorem finishRun_full_trace (env : Env) (pre : List Stage)
    (reviews : List (String × Review)) (plan : Plan)
    (h : (mkFinalImpls plan reviews).isSome = true)
    (ha : env.applyOk = true) (hv : env.validateOk = true) (hg : env.gitSetupOk = true)
    (hc : env.hasChanges = true) (hp : env.gitPushOk = true) :
    (finishRun env pre reviews plan).trace
      = pre ++ [Stage.applyFiles, Stage.validateS, Stage.gitOps, Stage.gitPush,
                Stage.prCreate, Stage.cleanup] := by
  unfold finishRun
  split
  · rename_i heq
    rw [heq] at h
    simp at h
  · rename_i fi heq
    rw [if_neg (by simp [ha]), if_neg (by simp [hv]), if_neg (by simp [hg]),
      if_neg (by simp [hc]), if_neg (by simp [hp])]

/-! ## C8: at most one re-implementation round -/

/-- Claim C8: in every run, the implement and critique stages each execute
at most twice, and the final implementations are built from the refined
code of the last critique round, with no further branching on its
`requires_re_implementation` flags. -/
theorem c8_at_most_one_retry (env : Env) :
    (process_issue env).trace.count Stage.implementS ≤ 2
    ∧ (process_issue env).trace.count Stage.critiqueS ≤ 2
    ∧ (∀ fi, (process_issue env).finalImpls = some fi →
        fi.map (fun pc => (pc.1, pc.2.content))
          = (process_issue env).reviews.map (fun pr => (pr.1, pr.2.refined_code))) := by
  unfold process_issue
  dsimp only
  split
  · exact ⟨by decide, by decide, fun fi h => by cases h⟩
  · split
    · exact ⟨by decide, by decide, fun fi h => by cases h⟩
    · split
      · exact ⟨by decide, by decide, fun fi h => by cases h⟩
      · split
        · exact ⟨by decide, by decide, fun fi h => by cases h⟩
        · split
          · exact ⟨by decide, by decide, fun fi h => by cases h⟩
          · rename_i plan hplaneq
            split
            · exact ⟨by decide, by decide, fun fi h => by cases h⟩
            · split
              · obtain ⟨hr, hf, hci, hcc⟩ := finishRun_spec env
                  [Stage.classify, Stage.fork, Stage.clone, Stage.analyze, Stage.planning,
                   Stage.implementS, Stage.critiqueS, Stage.implementS, Stage.critiqueS]
                  (critique_and_refine (implement_changes plan env.implResponse2)
                    env.critResponse2) plan
                refine ⟨?_, ?_, ?_⟩
                · rw [hci]; decide
                · rw [hcc]; decide
                · intro fi h
                  rw [hf] at h
                  rw [hr]
                  exact mkFinalImpls_map_content plan _ fi h
              · obtain ⟨hr, hf, hci, hcc⟩ := finishRun_spec env
                  [Stage.classify, Stage.fork, Stage.clone, Stage.analyze, Stage.planning,
                   Stage.implementS, Stage.critiqueS]
                  (critique_and_refine (implement_changes plan env.implResponse1)
                    env.critResponse1) plan
                refine ⟨?_, ?_, ?_⟩
                · rw [hci]; decide
                · rw [hcc]; decide
                · intro fi h
                  rw [hf] at h
                  rw [hr]
                  exact mkFinalImpls_map_content plan _ fi h

theorem c8_at_most_one_retry_witness :
    (process_issue happyEnv).finalImpls = some [("a.py", Impl.mk "print(2)" "REWRITE")]
    ∧ ([("a.py", Impl.mk "print(2)" "REWRITE")].map (fun pc => (pc.1, pc.2.content))
        = (process_issue happyEnv).reviews.map (fun pr => (pr.1, pr.2.refined_code))) :=
  ⟨by decide,
    (c8_at_most_one_retry happyEnv).2.2 [("a.py", Impl.mk "print(2)" "REWRITE")] (by decide)⟩

/-! ## C7: failure handling across the pipeline stages -/

/-- Claim C7 counterexample: in `critFailEnv` the critique call raises for
the only implemented file; the exception is caught and printed, but the
run does not stop - the fallback review keeps the draft and the apply,
validate, git and PR stages all still execute afterwards. -/
theorem c7_counterexample_critique_continues :
    critFailEnv.critResponse1 "a.py" = none
    ∧ Stage.critiqueS ∈ (process_issue critFailEnv).trace
    ∧ Stage.applyFiles ∈ (process_issue critFailEnv).trace
    ∧ Stage.gitPush ∈ (process_issue critFailEnv).trace
    ∧ (process_issue critFailEnv).reviews = [("a.py", fallbackReview "print(2)")] :=
  ⟨rfl, by decide, by decide, by decide, by decide⟩

/-- The plan `critFailEnv` ends up executing. -/
def planW : Plan := Plan.mk [FilePlan.mk "a.py" (some "REWRITE")] ["fix it"]

/-- `happyEnv` with a failing fork call. -/
def forkFailEnv : Env :=
  Env.mk (some "BUGFIX") false true (some "[\"a.py\"]") [("a.py", "print(1)")]
    (some planW)
    (fun _ => some "print(2)") (fun _ => some (Review.mk false "fine" "print(2)"))
    (fun _ => some "print(3)") (fun _ => some (Review.mk false "fine" "print(3)"))
    true true true true true

/-- Claim C7 amended: every stage failure is caught and printed, and the
aborting stages stop the run exactly where the source returns - an
unsupported classification, a failed fork, a failed clone, an empty
context, a failed plan and an empty implementation set each end the trace
at that stage.  The exceptions the counterexample exposes: a critique
failure is replaced by a fallback review that keeps the draft and the run
continues into the apply stage, and a PR-stage failure (which always
occurs, bot.py 788) is caught after the push, so cleanup still runs and
no PR is posted. -/
theorem c7_failure_handling_amended (env : Env) :
    (classify_task env.classifyResponse = "UNSUPPORTED" →
        (process_issue env).trace = [Stage.classify])
    ∧ (classify_task env.classifyResponse ≠ "UNSUPPORTED" → env.forkOk = false →
        (process_issue env).trace = [Stage.classify, Stage.fork])
    ∧ (classify_task env.classifyResponse ≠ "UNSUPPORTED" → env.forkOk = true →
        env.cloneOk = false →
        (process_issue env).trace
          = [Stage.classify, Stage.fork, Stage.clone, Stage.cleanup])
    ∧ (classify_task env.classifyResponse ≠ "UNSUPPORTED" → env.forkOk = true →
        env.cloneOk = true →
        (get_repo_context env.repoFS (select_relevant_files env.selectResponse)).isEmpty = true →
        (process_issue env).trace
          = [Stage.classify, Stage.fork, Stage.clone, Stage.analyze, Stage.cleanup])
    ∧ (classify_task env.classifyResponse ≠ "UNSUPPORTED" → env.forkOk = true →
        env.cloneOk = true →
        (get_repo_context env.repoFS (select_relevant_files env.selectResponse)).isEmpty = false →
        create_implementation_plan
          (get_repo_context env.repoFS (select_relevant_files env.selectResponse))
          env.planParsed = none →
        (process_issue env).trace
          = [Stage.classify, Stage.fork, Stage.clone, Stage.analyze, Stage.planning,
             Stage.cleanup])
    ∧ (∀ plan, classify_task env.classifyResponse ≠ "UNSUPPORTED" → env.forkOk = true →
        env.cloneOk = true →
        (get_repo_context env.repoFS (select_relevant_files env.selectResponse)).isEmpty = false →
        create_implementation_plan
          (get_repo_context env.repoFS (select_relevant_files env.selectResponse))
          env.planParsed = some plan →
        implement_changes plan env.implResponse1 = [] →
        (process_issue env).trace
          = [Stage.classify, Stage.fork, Stage.clone, Stage.analyze, Stage.planning,
             Stage.implementS, Stage.cleanup])
    ∧ (∀ plan, classify_task env.classifyResponse ≠ "UNSUPPORTED" → env.forkOk = true →
        env.cloneOk = true →
        (get_repo_context env.repoFS (select_relevant_files env.selectResponse)).isEmpty = false →
        create_implementation_plan
          (get_repo_context env.repoFS (select_relevant_files env.selectResponse))
          env.planParsed = some plan →
        implement_changes plan env.implResponse1 ≠ [] →
        (∀ fp ∈ plan.files, fp.change_type.isSome = true) →
        Stage.applyFiles ∈ (process_issue env).trace)
    ∧ (∀ impls, (∀ p, env.critResponse1 p = none) →
        critique_and_refine impls env.critResponse1
          = impls.map (fun pi => (pi.1, fallbackReview pi.2.content)))
    ∧ (∀ plan, classify_task env.classifyResponse ≠ "UNSUPPORTED" → env.forkOk = true →
        env.cloneOk = true →
        (get_repo_context env.repoFS (select_relevant_files env.selectResponse)).isEmpty = false →
        create_implementation_plan
          (get_repo_context env.repoFS (select_relevant_files env.selectResponse))
          env.planParsed = some plan →
        implement_changes plan env.implResponse1 ≠ [] →
        (∀ fp ∈ plan.files, fp.change_type.isSome = true) →
        env.applyOk = true → env.validateOk = true → env.gitSetupOk = true →
        env.hasChanges = true → env.gitPushOk = true →
        Stage.prCreate ∈ (process_issue env).trace
        ∧ Stage.cleanup ∈ (process_issue env).trace
        ∧ (process_issue env).prPosted = false) := by
  refine ⟨?_, ?_, ?_, ?_, ?_, ?_, ?_, ?_, ?_⟩
  · intro h1
    unfold process_issue
    rw [if_pos h1]
  · intro h1 h2
    unfold process_issue
    rw [if_neg h1, if_pos h2]
  · intro h1 h2 h3
    unfold process_issue
    rw [if_neg h1, if_neg (by simp [h2]), if_pos h3]
  · intro h1 h2 h3 h4
    unfold process_issue
    rw [if_neg h1, if_neg (by simp [h2]), if_neg (by simp [h3])]
    dsimp only
    rw [if_pos h4]
  · intro h1 h2 h3 h4 h5
    unfold process_issue
    rw [if_neg h1, if_neg (by simp [h2]), if_neg (by simp [h3])]
    dsimp only
    rw [if_neg (by simp [h4]), h5]
  · intro plan h1 h2 h3 h4 h5 h6
    unfold process_issue
    rw [if_neg h1, if_neg (by simp [h2]), if_neg (by simp [h3])]
    dsimp only
    rw [if_neg (by simp [h4]), h5]
    dsimp only
    rw [if_pos (by simp [h6])]
  · intro plan h1 h2 h3 h4 h5 h6 h7
    unfold process_issue
    rw [if_neg h1, if_neg (by simp [h2]), if_neg (by simp [h3])]
    dsimp only
    rw [if_neg (by simp [h4]), h5]
    dsimp only
    rw [if_neg (by simp [List.isEmpty_iff, h6])]
    split
    · exact finishRun_applyFiles_mem env _ _ plan (mkFinalImpls_isSome plan _ h7)
    · exact finishRun_applyFiles_mem env _ _ plan (mkFinalImpls_isSome plan _ h7)
  · intro impls hnone
    unfold critique_and_refine
    apply List.map_congr_left
    intro pi _
    rw [hnone pi.1]
  · intro plan h1 h2 h3 h4 h5 h6 h7 ha hv hg hc hp
    unfold process_issue
    rw [if_neg h1, if_neg (by simp [h2]), if_neg (by simp [h3])]
    dsimp only
    rw [if_neg (by simp [h4]), h5]
    dsimp only
    rw [if_neg (by simp [List.isEmpty_iff, h6])]
    split
    · rw [finishRun_full_trace env _ _ plan (mkFinalImpls_isSome plan _ h7) ha hv hg hc hp]
      refine ⟨by simp, by simp, ?_⟩
      exact finishRun_prPosted env _ _ plan
    · rw [finishRun_full_trace env _ _ plan (mkFinalImpls_isSome plan _ h7) ha hv hg hc hp]
      refine ⟨by simp, by simp, ?_⟩
      exact finishRun_prPosted env _ _ plan

theorem c7_failure_handling_witness :
    (process_issue forkFailEnv).trace = [Stage.classify, Stage.fork]
    ∧ Stage.applyFiles ∈ (process_issue critFailEnv).trace :=
  ⟨(c7_failure_handling_amended forkFailEnv).2.1 (by decide) rfl,
   (c7_failure_handling_amended critFailEnv).2.2.2.2.2.2.1 planW (by decide) rfl rfl
     (by decide) (by decide) (by decide) (by decide)⟩

example : is_safe_to_modify "src/main.py" = true := by decide
example : is_safe_to_modify "node_modules/a.js" = false := by decide
example : is_safe_to_modify ".env" = false := by decide
example : is_safe_to_modify "conf/.ssh/x.py" = false := by decide
example : is_safe_to_modify "a/server.KEY" = false := by decide
example : is_safe_to_modify "Dockerfile" = true := by decide
example : is_safe_to_modify "src/component.jsx" = false := by decide

end Bot
